import Mathlib

/-!
Verification of the trish-devion storefront's data-access and checkout logic.

The definitions below are shallow embeddings of the TypeScript source:
list-merge logic of the realtime orders feed (src/hooks/useOrders.ts),
payment-method filtering (src/hooks/usePaymentMethods.ts), discount pricing
(MenuItemCard's getDiscountedPriceSync), checkout validation and order-message
generation (src/components/Checkout.tsx), password hashing (useMemberAuth) and
top-member aggregation (useMembers).  JavaScript records are modelled as
association lists, JavaScript `undefined`/`null` as `Option`, numbers as `ℚ`
(prices) or `Nat` (counts), and JavaScript truthiness is spelled out at each
use site.
-/

/- ===================== generic JS helpers ===================== -/

/-- Lookup in a JS record modelled as an association list (first binding wins;
records built by the code below never hold a key twice). -/
def recordGet (rec : List (String × String)) (k : String) : Option String :=
  (rec.find? (fun e => e.1 == k)).map (·.2)

/-- JS record assignment `rec[k] = v`: replace the binding if the key exists,
otherwise append it (JS object keys keep insertion order). -/
def recordSet (rec : List (String × String)) (k v : String) : List (String × String) :=
  if rec.any (fun e => e.1 == k) then
    rec.map (fun e => if e.1 == k then (k, v) else e)
  else rec ++ [(k, v)]

/-- JS `String.prototype.trim()`: strip whitespace from both ends. -/
def jsTrim (s : String) : String :=
  ⟨((s.data.dropWhile Char.isWhitespace).reverse.dropWhile Char.isWhitespace).reverse⟩

/-- Whether `sub` occurs at the head of `s` (char-list version). -/
def charsHaveHead : List Char → List Char → Bool
  | [], _ => true
  | _ :: _, [] => false
  | c :: cs, d :: ds => c == d && charsHaveHead cs ds

/-- Whether the string `sub` occurs anywhere inside `s` (JS `String.includes`). -/
def strContains (s sub : String) : Bool :=
  (List.range (s.data.length + 1)).any (fun i => charsHaveHead sub.data (s.data.drop i))

/-- The characters before the first occurrence of `sep` (all of them when `sep`
does not occur). -/
def takeBeforeSep (sep : List Char) : List Char → List Char
  | [] => []
  | c :: rest => if charsHaveHead sep (c :: rest) then [] else c :: takeBeforeSep sep rest

/-- JS truthiness of an optional string: `undefined`, `null` and `''` are falsy. -/
def optStrTruthy : Option String → Bool
  | none => false
  | some s => s ≠ ""

/-- Multiplication of JS numbers (exact rationals here).  Written through
`mkRat` so that concrete instances reduce inside the kernel; `jsMul_eq` below
proves it is ordinary multiplication on `ℚ`. -/
def jsMul (a b : ℚ) : ℚ := mkRat (a.num * b.num) (a.den * b.den)

/-- Addition of JS numbers; `jsAdd_eq` proves it is ordinary `+` on `ℚ`. -/
def jsAdd (a b : ℚ) : ℚ := mkRat (a.num * b.den + b.num * a.den) (a.den * b.den)

/-- Subtraction of JS numbers; `jsSub_eq` proves it is ordinary `-` on `ℚ`. -/
def jsSub (a b : ℚ) : ℚ := mkRat (a.num * b.den - b.num * a.den) (a.den * b.den)

/-- `Array.prototype.filter((x, i, self) => i === self.findIndex(y => key y == key x))`:
keep only the first occurrence of every key.  This is the deduplication used by
`fetchOrders` in useOrders.ts (key = order id); the `Map`-based deduplications in
Checkout.tsx (set-if-absent, then read values in insertion order) produce their
output by the same keep-first rule. -/
def keepFirstBy {α : Type} (key : α → String) (l : List α) : List α :=
  (l.enum.filter (fun p => l.findIdx (fun x => key x == key p.2) == p.1)).map Prod.snd

/- ===================== data model ===================== -/

/-- A row of the `orders` table, with the fields selected by useOrders.ts
(jsonb payloads kept as opaque strings). -/
structure Order where
  id : String
  invoice_number : Option String := none
  status : String := "pending"
  total_price : Option ℚ := none
  payment_method_id : String := ""
  created_at : String := ""
  updated_at : String := ""
  member_id : Option String := none
  order_option : Option String := none
  order_items : String := ""
  customer_info : String := ""
  receipt_url : Option String := none
  rejection_message : Option String := none
deriving DecidableEq, Repr

/- ===================== C1: useOrders merge operations ===================== -/

/-- useOrders.ts lines 33-43: on an incremental fetch, prepend the newly fetched
orders, drop duplicate ids (keeping the first occurrence) and keep only the most
recent `limit`. -/
def mergeFetchedOrders (data prev : List Order) (limit : Nat) : List Order :=
  (keepFirstBy Order.id (data ++ prev)).take limit

/-- useOrders.ts lines 162-167: the realtime INSERT callback.  If an order with
the payload's id is already in the list the list is returned unchanged,
otherwise the new order is prepended and the list capped at 100 entries. -/
def mergeRealtimeInsert (newOrder : Order) (prev : List Order) : List Order :=
  if prev.any (fun o => o.id == newOrder.id) then prev
  else (newOrder :: prev).take 100

/-- Concrete 100-entry orders list with pairwise distinct ids. -/
def cexPrev : List Order := (List.range 100).map (fun i => { id := "o" ++ toString i })

/-- A fresh order whose id does not occur in `cexPrev`. -/
def cexNew : Order := { id := "fresh" }

/- ===================== C4: payment methods (usePaymentMethods.ts) ===================== -/

/-- A row of the `payment_methods` table (usePaymentMethods.ts interface). -/
structure PaymentMethod where
  uuid_id : String := ""
  id : String
  name : String := ""
  account_number : String := ""
  account_name : String := ""
  qr_code_url : String := ""
  active : Bool := true
  sort_order : Int := 0
  admin_name : Option String := none
deriving DecidableEq, Repr

/-- A row of the `admin_payment_groups` table. -/
structure AdminPaymentGroup where
  id : String := ""
  admin_name : String
  is_active : Bool := false
deriving DecidableEq, Repr

/-- usePaymentMethods.ts lines 47-86 (fetchPaymentMethods): select the active
admin groups; if none, the customer-visible list is empty; otherwise select the
payment methods that are active and whose admin_name is in the active groups,
ordered by sort_order ascending.  A method with a NULL admin_name matches no
IN-list, so it is excluded. -/
def fetchPaymentMethodsModel (groups : List AdminPaymentGroup)
    (methods : List PaymentMethod) : List PaymentMethod :=
  let activeGroups := groups.filter (·.is_active)
  if activeGroups.isEmpty then []
  else
    let activeAdminNames := activeGroups.map (·.admin_name)
    (methods.filter (fun m => m.active &&
        match m.admin_name with
        | some n => activeAdminNames.contains n
        | none => false)).mergeSort (fun a b => decide (a.sort_order ≤ b.sort_order))

/-- usePaymentMethods.ts lines 145-161 (updateAdminGroup): set is_active on the
group(s) with the given admin_name. -/
def updateAdminGroupModel (groups : List AdminPaymentGroup) (adminName : String)
    (isActive : Bool) : List AdminPaymentGroup :=
  groups.map (fun g => if g.admin_name == adminName then { g with is_active := isActive } else g)

/- ===================== C5: createOrder (useOrders.ts) ===================== -/

/-- The argument of createOrder (jsonb payloads kept opaque). -/
structure CreateOrderData where
  order_items : String := ""
  customer_info : String := ""
  payment_method_id : String := ""
  receipt_url : String := ""
  total_price : ℚ := 0
  member_id : Option String := none
  order_option : Option String := none
  invoice_number : Option String := none
deriving DecidableEq, Repr

/-- The row payload passed to `.insert(...)`. -/
structure OrderInsert where
  order_items : String
  customer_info : String
  payment_method_id : String
  receipt_url : String
  total_price : ℚ
  member_id : Option String
  order_option : String
  invoice_number : Option String
  status : String
deriving DecidableEq, Repr

/-- useOrders.ts lines 78-90: the insert payload built by createOrder.
`orderData.member_id || null` and `orderData.invoice_number || null` map empty
strings to null; `orderData.order_option || 'place_order'` defaults the order
option. -/
def createOrderPayload (d : CreateOrderData) : OrderInsert :=
  { order_items := d.order_items
    customer_info := d.customer_info
    payment_method_id := d.payment_method_id
    receipt_url := d.receipt_url
    total_price := d.total_price
    member_id := if optStrTruthy d.member_id then d.member_id else none
    order_option := match d.order_option with
      | some s => if s ≠ "" then s else "place_order"
      | none => "place_order"
    invoice_number := if optStrTruthy d.invoice_number then d.invoice_number else none
    status := "pending" }

/-- The status enum of the orders table check constraint
(CHECK (status IN ('pending', 'processing', 'approved', 'rejected'))). -/
def orderStatusAllowed (s : String) : Bool :=
  s == "pending" || s == "processing" || s == "approved" || s == "rejected"

/-- The orders table accepts an insert only when the payload passes the status
check constraint; the stored row carries the payload's fields. -/
def dbInsertOrder (p : OrderInsert) (newId : String) : Option Order :=
  if orderStatusAllowed p.status then
    some { id := newId, status := p.status, total_price := some p.total_price,
           payment_method_id := p.payment_method_id, member_id := p.member_id,
           order_option := some p.order_option, order_items := p.order_items,
           customer_info := p.customer_info, receipt_url := some p.receipt_url,
           invoice_number := p.invoice_number, rejection_message := none }
  else none

/-- useOrders.ts lines 76-114: createOrder inserts the payload and returns the
created row, or null when the backend reports an error (the catch branch). -/
def createOrderModel (d : CreateOrderData)
    (backend : OrderInsert → Except String Order) : Option Order :=
  match backend (createOrderPayload d) with
  | .ok o => some o
  | .error _ => none

/- ===================== C6: updateOrderStatus (useOrders.ts) ===================== -/

/-- useOrders.ts lines 119-122: the update payload.  The outer `Option` is
`none` when the payload carries no rejection_message field (status not
'rejected', or rejectionMessage === undefined); the inner `Option` is the
field's value (null or a string).  `rejectionMessage && rejectionMessage.trim()
? rejectionMessage.trim() : null` stores the trimmed message when it is a
non-blank string and null otherwise. -/
def rejectionPayload (status : String) (rejectionMessage : Option (Option String)) :
    Option (Option String) :=
  if status == "rejected" then
    match rejectionMessage with
    | none => none
    | some m =>
      some (match m with
        | some s => if jsTrim s ≠ "" then some (jsTrim s) else none
        | none => none)
  else none

/-- useOrders.ts lines 131-137: map over the list, rewriting the entry whose id
matches (`updatePayload.rejection_message ?? null` reads the payload field,
defaulting a missing field to null). -/
def applyOrderStatusUpdate (orders : List Order) (orderId status : String)
    (payloadRej : Option (Option String)) : List Order :=
  orders.map (fun o =>
    if o.id == orderId then
      { o with status := status,
               rejection_message := if status == "rejected" then payloadRej.getD none else none }
    else o)

/-- useOrders.ts lines 117-145: on backend success the list entry with the given
id is rewritten and true is returned; on backend failure the catch branch
returns false and the list is untouched.  (The `orders.length > 0` guard in the
source only skips a map over the empty list, which is the identity.) -/
def updateOrderStatusModel (orders : List Order) (orderId status : String)
    (rejectionMessage : Option (Option String)) (backendOk : Bool) : Bool × List Order :=
  if backendOk then
    (true, applyOrderStatusUpdate orders orderId status (rejectionPayload status rejectionMessage))
  else (false, orders)

/- ===================== C8: realtime subscription gating (useOrders.ts) ===================== -/

/-- The site_settings shape consumed by useOrders.ts (order_option may be
missing). -/
structure SiteSettings where
  order_option : Option String := none
deriving DecidableEq, Repr

/-- useOrders.ts line 8: `siteSettings?.order_option || 'order_via_messenger'`. -/
def orderOptionOf (s : Option SiteSettings) : String :=
  match s with
  | some st =>
    match st.order_option with
    | some v => if v ≠ "" then v else "order_via_messenger"
    | none => "order_via_messenger"
  | none => "order_via_messenger"

/-- useOrders.ts line 150: the subscription useEffect returns immediately unless
the order option is 'place_order', so the realtime channel is opened exactly
when this holds. -/
def subscriptionActive (s : Option SiteSettings) : Bool :=
  orderOptionOf s == "place_order"

/-- A payload of the orders realtime channel. -/
inductive RealtimeEvent where
  | insertEvent (newOrder : Order)
  | updateEvent (updatedOrder : Order)
  | deleteEvent (oldId : String)
deriving DecidableEq, Repr

/-- useOrders.ts lines 161-176: the subscription callback.  INSERT merges by id,
UPDATE rewrites the matching entry with the payload row (`{ ...order,
...updatedOrder }` overrides every column), DELETE filters the id out. -/
def applyRealtimeEvent (e : RealtimeEvent) (prev : List Order) : List Order :=
  match e with
  | .insertEvent n => mergeRealtimeInsert n prev
  | .updateEvent u => prev.map (fun o => if o.id == u.id then u else o)
  | .deleteEvent oldId => prev.filter (fun o => !(o.id == oldId))

/-- The effect of a realtime payload on the orders list: none at all when the
channel was never opened. -/
def processRealtime (s : Option SiteSettings) (e : RealtimeEvent) (prev : List Order) :
    List Order :=
  if subscriptionActive s then applyRealtimeEvent e prev else prev

/- ===================== C2 / C7: Checkout.tsx ===================== -/

/-- A catalog variation (currency package). -/
structure Variation where
  id : String
  name : String := ""
  price : ℚ := 0
  reseller_price : Option ℚ := none
  member_price : Option ℚ := none
deriving DecidableEq, Repr

/-- A custom details-form field of a catalog item. -/
structure CustomField where
  key : String
  label : String := ""
  required : Bool := false
  placeholder : Option String := none
deriving DecidableEq, Repr

/-- A cart entry (fields used by Checkout.tsx). -/
structure CartItem where
  id : String
  name : String := ""
  quantity : Nat := 1
  totalPrice : ℚ := 0
  selectedVariation : Option Variation := none
  customFields : Option (List CustomField) := none
deriving DecidableEq, Repr

/-- Checkout.tsx lines 47-50: `parts = id.split(':::CART:::'); parts.length > 1
? parts[0] : id`.  The split yields more than one part exactly when the
separator occurs in the id, and parts[0] is the text before its first
occurrence. -/
def getOriginalMenuItemId (cartItemId : String) : String :=
  if strContains cartItemId ":::CART:::" then
    ⟨takeBeforeSep ":::CART:::".data cartItemId.data⟩
  else cartItemId

/-- Checkout.tsx lines 56-67: the cart items that carry custom fields,
deduplicated by original menu item id (first occurrence wins, Map
insertion order). -/
def itemsWithCustomFields (cartItems : List CartItem) : List CartItem :=
  keepFirstBy (fun i => getOriginalMenuItemId i.id)
    (cartItems.filter (fun i =>
      match i.customFields with
      | some fs => fs.length > 0
      | none => false))

/-- Checkout.tsx line 69. -/
def hasAnyCustomFields (cartItems : List CartItem) : Bool :=
  !(itemsWithCustomFields cartItems).isEmpty

/-- Checkout.tsx lines 486-510 (handlePlaceOrderDirect): the customer_info
record sent with a direct order.  The details-form inputs (lines 677-699) store
entered values under the key `originalId_fieldIndex_field.key`, and this
function reads them back under the same indexed key. -/
def buildCustomerInfo (cartItems : List CartItem) (customFieldValues : List (String × String))
    (spmName : String) : List (String × String) :=
  let base := recordSet [] "Payment Method" spmName
  if hasAnyCustomFields cartItems then
    (itemsWithCustomFields cartItems).foldl (fun acc item =>
      let originalId := getOriginalMenuItemId item.id
      (item.customFields.getD []).enum.foldl (fun acc2 p =>
        let valueKey := originalId ++ "_" ++ toString p.1 ++ "_" ++ p.2.key
        match recordGet customFieldValues valueKey with
        | some v => if v ≠ "" then recordSet acc2 p.2.label v else acc2
        | none => acc2) acc) base
  else
    match recordGet customFieldValues "default_ign" with
    | some v => if v ≠ "" then recordSet base "IGN" v else base
    | none => base

/-- Checkout.tsx lines 253-257 (generateOrderMessage): the entered (label, value)
pairs of one game.  Note the lookup key here is `originalId_field.key` with no
field index — this is the key format of the earlier Checkout variant, not the
one the current details-form inputs write. -/
def messageEnteredFields (customFieldValues : List (String × String)) (item : CartItem) :
    List (String × String) :=
  (item.customFields.getD []).filterMap (fun field =>
    let valueKey := getOriginalMenuItemId item.id ++ "_" ++ field.key
    let value := (recordGet customFieldValues valueKey).getD ""
    if value ≠ "" then some (field.label, value) else none)

/-- One step of the `gamesByFieldValues` Map: push the game name onto an
existing group or append a fresh group. -/
def upsertMessageGroup (acc : List (String × List String × List (String × String)))
    (k : String) (gameName : String) (fields : List (String × String)) :
    List (String × List String × List (String × String)) :=
  if acc.any (fun e => e.1 == k) then
    acc.map (fun e => if e.1 == k then (e.1, e.2.1 ++ [gameName], e.2.2) else e)
  else acc ++ [(k, [gameName], fields)]

/-- Checkout.tsx lines 248-268: group games by the joined `label:value` key of
their entered fields. -/
def gamesByFieldValues (cartItems : List CartItem)
    (customFieldValues : List (String × String)) :
    List (String × List String × List (String × String)) :=
  (itemsWithCustomFields cartItems).foldl (fun acc item =>
    let fields := messageEnteredFields customFieldValues item
    if fields.isEmpty then acc
    else
      let k := String.intercalate "|" (fields.map (fun f => f.1 ++ ":" ++ f.2))
      upsertMessageGroup acc k item.name fields) []

/-- JS `String.prototype.lastIndexOf` for a single character (-1 when absent). -/
def lastIndexOfChar (cs : List Char) (c : Char) : Int :=
  (cs.length : Int) - 1 - (cs.reverse.findIdx (fun d => d == c) : Int)

/-- Checkout.tsx lines 281-286: join the labels, replace the last ', ' by ' &'. -/
def combineSameValueLabels (fields : List (String × String)) : String :=
  let labels := String.intercalate ", " (fields.map (fun f => f.1))
  let cs := labels.data
  let i := lastIndexOfChar cs ','
  if i > 0 then ⟨cs.take i.toNat⟩ ++ " &" ++ ⟨cs.drop (i.toNat + 1)⟩
  else labels

/-- Checkout.tsx lines 270-292: the pushed sections, two per group (game names,
then the field line). -/
def messageSections (cartItems : List CartItem)
    (customFieldValues : List (String × String)) : List String :=
  (gamesByFieldValues cartItems customFieldValues).foldl (fun secs e =>
    let games := e.2.1
    let fields := e.2.2
    if games.isEmpty || fields.isEmpty then secs
    else
      let gamesLine := String.intercalate "\n" games
      let fieldsLine :=
        match fields with
        | [] => ""
        | f0 :: _ =>
          if fields.all (fun f => f.2 == f0.2) && fields.length > 1 then
            combineSameValueLabels fields ++ ": " ++ f0.2
          else
            String.intercalate ", " (fields.map (fun f => f.1 ++ ": " ++ f.2))
      secs ++ [gamesLine, fieldsLine]) []

/-- Checkout.tsx lines 244-299: the custom-fields section of the order message
(default IGN line when no cart item has custom fields). -/
def customFieldsSection (cartItems : List CartItem)
    (customFieldValues : List (String × String)) : String :=
  if hasAnyCustomFields cartItems then
    let sections := messageSections cartItems customFieldValues
    if sections.isEmpty then "" else String.intercalate "\n" sections
  else "IGN: " ++ (recordGet customFieldValues "default_ign").getD ""

/-- Rendering of a JS number in a template literal; every price this
development evaluates is integer-valued, where JS prints the plain integer. -/
def renderPrice (q : ℚ) : String :=
  if q.den == 1 then toString q.num else toString q.num ++ "/" ++ toString q.den

/-- Checkout.tsx lines 305-312: one ORDER DETAILS line. -/
def itemLine (item : CartItem) : String :=
  "• " ++ item.name ++
  (match item.selectedVariation with
   | some v => " (" ++ v.name ++ ")"
   | none => "") ++
  " x" ++ toString item.quantity ++ " - ₱" ++
    renderPrice (jsMul item.totalPrice (item.quantity : ℚ))

/-- Checkout.tsx lines 243-322 (generateOrderMessage): the full order message. -/
def generateOrderMessage (cartItems : List CartItem)
    (customFieldValues : List (String × String)) (totalPrice : ℚ)
    (selectedPaymentMethod : Option PaymentMethod)
    (receiptImageUrl : Option String) : String :=
  jsTrim ("\n" ++ customFieldsSection cartItems customFieldValues ++
    "\n\nORDER DETAILS:\n" ++ String.intercalate "\n" (cartItems.map itemLine) ++
    "\n\nTOTAL: ₱" ++ renderPrice totalPrice ++
    "\n\nPayment: " ++ (selectedPaymentMethod.map (fun m => m.name)).getD "" ++
    "\n\nPayment Receipt: " ++ receiptImageUrl.getD "" ++ "\n    ")

/-- Checkout.tsx line 183: the selected payment method object. -/
def selectedPaymentMethodOf (paymentMethods : List PaymentMethod)
    (paymentMethod : Option String) : Option PaymentMethod :=
  match paymentMethod with
  | some pid => paymentMethods.find? (fun m => m.id == pid)
  | none => none

/-- Result of handlePlaceOrderDirect: either a validation error message or a
createOrder call with the given arguments. -/
inductive DirectOrderOutcome where
  | validationError (message : String)
  | placed (order_items : List CartItem) (customer_info : List (String × String))
      (payment_method_id : String) (receipt_url : String) (total_price : ℚ)
deriving DecidableEq, Repr

/-- Checkout.tsx lines 465-533 (handlePlaceOrderDirect): validation guards, then
the createOrder call. -/
def handlePlaceOrderDirect (paymentMethods : List PaymentMethod)
    (paymentMethod receiptImageUrl : Option String) (cartItems : List CartItem)
    (customFieldValues : List (String × String)) (totalPrice : ℚ) : DirectOrderOutcome :=
  if !optStrTruthy paymentMethod then .validationError "Please select a payment method"
  else if !optStrTruthy receiptImageUrl then
    .validationError "Please upload your payment receipt before placing the order"
  else
    match selectedPaymentMethodOf paymentMethods paymentMethod with
    | none => .validationError "Please select a payment method"
    | some spm =>
      .placed cartItems (buildCustomerInfo cartItems customFieldValues spm.name) spm.id
        (receiptImageUrl.getD "") totalPrice

/-- Result of handlePlaceOrder (messenger mode): a validation error or the
window.open of the m.me deep link whose text parameter is the
encodeURIComponent of the carried order message. -/
inductive MessengerOrderOutcome where
  | validationError (message : String)
  | openMessenger (orderDetails : String)
deriving DecidableEq, Repr

/-- Checkout.tsx lines 447-463 (handlePlaceOrder). -/
def handlePlaceOrder (paymentMethods : List PaymentMethod)
    (paymentMethod receiptImageUrl : Option String) (cartItems : List CartItem)
    (customFieldValues : List (String × String)) (totalPrice : ℚ) : MessengerOrderOutcome :=
  if !optStrTruthy paymentMethod then .validationError "Please select a payment method"
  else if !optStrTruthy receiptImageUrl then
    .validationError "Please upload your payment receipt before placing the order"
  else
    .openMessenger (generateOrderMessage cartItems customFieldValues totalPrice
      (selectedPaymentMethodOf paymentMethods paymentMethod) receiptImageUrl)

/-- A cart with one game carrying one custom field (key "uid", label "User ID"). -/
def c2Item : CartItem :=
  { id := "g1", name := "MLBB", totalPrice := 100,
    customFields := some [{ key := "uid", label := "User ID" }] }

/-- The customFieldValues state after the customer types "12345" into the
details-form input for that field: Checkout.tsx line 680 stores it under
`originalId_fieldIndex_field.key`. -/
def c2Values : List (String × String) := [("g1_0_uid", "12345")]

/-- A concrete payment method for the checkout scenarios. -/
def c2Gcash : PaymentMethod := { id := "gcash", name := "GCash" }

/- ===================== C3: getDiscountedPriceSync (MenuItemCard) ===================== -/

/-- A row of the `members` table. -/
structure Member where
  id : String
  username : String := ""
  email : String := ""
  mobile_no : Option String := none
  password_hash : String := ""
  level : Nat := 1
  status : String := "active"
  user_type : String := "end_user"
deriving DecidableEq, Repr

/-- A catalog item (fields used by MenuItemCard). -/
structure MenuItem where
  id : String
  name : String := ""
  variations : Option (List Variation) := none
  isOnDiscount : Bool := false
  discountPercentage : Option ℚ := none
  available : Bool := true
deriving DecidableEq, Repr

/-- useMemberAuth's isReseller: `currentMember?.user_type === 'reseller'`. -/
def isResellerM (m : Option Member) : Bool :=
  (m.map (fun mem => mem.user_type == "reseller")).getD false

/-- MenuItemCard's getVariationById: undefined when the id is falsy (the empty
string included) or the item has no variations. -/
def getVariationById (item : MenuItem) (variationId : Option String) : Option Variation :=
  match variationId, item.variations with
  | some vid, some vs => if vid == "" then none else vs.find? (fun v => v.id == vid)
  | _, _ => none

/-- The cached memberDiscounts record (variation id → discount selling_price). -/
def discountLookup (md : List (String × ℚ)) (vid : String) : Option ℚ :=
  (md.find? (fun e => e.1 == vid)).map (fun e => e.2)

/-- ImageUpload.tsx lines 200-226 (getDiscountedPriceSync in MenuItemCard).
Priority 1: reseller and `variation?.reseller_price !== undefined`;
priority 2: end-user member and `variation?.member_price !== undefined`;
priority 3: reseller with a truthy `memberDiscounts[variationId]` — a missing
entry reads as undefined and a 0 selling price is falsy, so this reduces to
`(lookup).getD 0 ≠ 0` — guarded by truthiness of variationId itself;
priority 4: item-level percentage discount; priority 5: the base price. -/
def getDiscountedPriceSync (currentMember : Option Member) (memberDiscounts : List (String × ℚ))
    (item : MenuItem) (basePrice : ℚ) (variationId : Option String) : ℚ :=
  let variation := getVariationById item variationId
  if isResellerM currentMember && currentMember.isSome &&
      (variation.bind Variation.reseller_price).isSome then
    (variation.bind Variation.reseller_price).getD 0
  else if currentMember.isSome && !isResellerM currentMember &&
      (currentMember.map (fun m => m.user_type == "end_user")).getD false &&
      (variation.bind Variation.member_price).isSome then
    (variation.bind Variation.member_price).getD 0
  else if isResellerM currentMember && currentMember.isSome && optStrTruthy variationId &&
      (match variationId with
       | some vid => decide (((discountLookup memberDiscounts vid).getD 0) ≠ 0)
       | none => false) then
    (match variationId with
     | some vid => (discountLookup memberDiscounts vid).getD 0
     | none => 0)
  else if item.isOnDiscount && item.discountPercentage.isSome then
    jsSub basePrice (jsMul basePrice (item.discountPercentage.getD 0))
  else basePrice

/-- A reseller member. -/
def c3Reseller : Member := { id := "m1", user_type := "reseller" }

/-- An item on a 10% discount whose variation "v1" has no override prices. -/
def c3Item : MenuItem :=
  { id := "game1", variations := some [{ id := "v1", name := "100 diamonds", price := 100 }],
    isOnDiscount := true, discountPercentage := some (mkRat 1 10) }

/- ===================== C9: password hashing (useMemberAuth) ===================== -/

/-- Truncation to a 32-bit word. -/
def w32 (x : Nat) : Nat := x % 4294967296

/-- 32-bit rotate right. -/
def rotr32 (n x : Nat) : Nat := w32 ((x >>> n) ||| (x <<< (32 - n)))

/-- SHA-256 Ch(x,y,z) = (x ∧ y) ⊕ (¬x ∧ z); on 32-bit words ¬x is x ⊕ 0xffffffff. -/
def shaCh (x y z : Nat) : Nat := (x &&& y) ^^^ ((x ^^^ 4294967295) &&& z)

/-- SHA-256 Maj(x,y,z). -/
def shaMaj (x y z : Nat) : Nat := (x &&& y) ^^^ (x &&& z) ^^^ (y &&& z)

/-- SHA-256 Σ0. -/
def bigSigma0 (x : Nat) : Nat := rotr32 2 x ^^^ rotr32 13 x ^^^ rotr32 22 x

/-- SHA-256 Σ1. -/
def bigSigma1 (x : Nat) : Nat := rotr32 6 x ^^^ rotr32 11 x ^^^ rotr32 25 x

/-- SHA-256 σ0. -/
def smallSigma0 (x : Nat) : Nat := rotr32 7 x ^^^ rotr32 18 x ^^^ (x >>> 3)

/-- SHA-256 σ1. -/
def smallSigma1 (x : Nat) : Nat := rotr32 17 x ^^^ rotr32 19 x ^^^ (x >>> 10)

/-- The eight 32-bit working registers. -/
structure Sha256State where
  a : Nat
  b : Nat
  c : Nat
  d : Nat
  e : Nat
  f : Nat
  g : Nat
  h : Nat
deriving DecidableEq, Repr

/-- SHA-256 initial hash value. -/
def sha256InitState : Sha256State :=
  ⟨1779033703, 3144134277, 1013904242, 2773480762,
   1359893119, 2600822924, 528734635, 1541459225⟩

/-- SHA-256 round constants. -/
def sha256K : List Nat :=
  [1116352408, 1899447441, 3049323471, 3921009573, 961987163,
   1508970993, 2453635748, 2870763221, 3624381080, 310598401,
   607225278, 1426881987, 1925078388, 2162078206, 2614888103,
   3248222580, 3835390401, 4022224774, 264347078, 604807628,
   770255983, 1249150122, 1555081692, 1996064986, 2554220882,
   2821834349, 2952996808, 3210313671, 3336571891, 3584528711,
   113926993, 338241895, 666307205, 773529912, 1294757372,
   1396182291, 1695183700, 1986661051, 2177026350, 2456956037,
   2730485921, 2820302411, 3259730800, 3345764771, 3516065817,
   3600352804, 4094571909, 275423344, 430227734, 506948616,
   659060556, 883997877, 958139571, 1322822218, 1537002063,
   1747873779, 1955562222, 2024104815, 2227730452, 2361852424,
   2428436474, 2756734187, 3204031479, 3329325298]

/-- Extend a 16-word block to the 64-word message schedule (`n` appends left). -/
def sha256Extend : Nat → List Nat → List Nat
  | 0, w => w
  | n + 1, w =>
    sha256Extend n (w ++ [w32 (smallSigma1 (w.getD (w.length - 2) 0) +
      w.getD (w.length - 7) 0 + smallSigma0 (w.getD (w.length - 15) 0) +
      w.getD (w.length - 16) 0)])

/-- One SHA-256 round. -/
def sha256Round (s : Sha256State) (kt wt : Nat) : Sha256State :=
  let t1 := w32 (s.h + bigSigma1 s.e + shaCh s.e s.f s.g + kt + wt)
  let t2 := w32 (bigSigma0 s.a + shaMaj s.a s.b s.c)
  ⟨w32 (t1 + t2), s.a, s.b, s.c, w32 (s.d + t1), s.e, s.f, s.g⟩

/-- Compress one 16-word block into the running state. -/
def sha256Compress (h0 : Sha256State) (block : List Nat) : Sha256State :=
  let w := sha256Extend 48 block
  let s := (sha256K.zip w).foldl (fun st p => sha256Round st p.1 p.2) h0
  ⟨w32 (h0.a + s.a), w32 (h0.b + s.b), w32 (h0.c + s.c), w32 (h0.d + s.d),
   w32 (h0.e + s.e), w32 (h0.f + s.f), w32 (h0.g + s.g), w32 (h0.h + s.h)⟩

/-- SHA-256 padding: 0x80, zeros to 56 mod 64, then the 64-bit big-endian bit
length. -/
def sha256Pad (msg : List Nat) : List Nat :=
  let bitLen := msg.length * 8
  let zeros := (119 - (msg.length % 64)) % 64
  msg ++ [128] ++ List.replicate zeros 0 ++
    [bitLen / 2 ^ 56 % 256, bitLen / 2 ^ 48 % 256, bitLen / 2 ^ 40 % 256,
     bitLen / 2 ^ 32 % 256, bitLen / 2 ^ 24 % 256, bitLen / 2 ^ 16 % 256,
     bitLen / 2 ^ 8 % 256, bitLen % 256]

/-- Big-endian bytes to 32-bit words. -/
def bytesToWords : List Nat → List Nat
  | b0 :: b1 :: b2 :: b3 :: rest =>
    (b0 * 2 ^ 24 + b1 * 2 ^ 16 + b2 * 2 ^ 8 + b3) :: bytesToWords rest
  | _ => []

/-- Fold the 16-word blocks into the state (the fuel is an upper bound on the
number of blocks; each step consumes at least one word, so a fuel equal to the
word count never runs out). -/
def sha256ProcessWords : Nat → Sha256State → List Nat → Sha256State
  | _, st, [] => st
  | 0, st, _ :: _ => st
  | n + 1, st, w :: ws =>
    sha256ProcessWords n (sha256Compress st ((w :: ws).take 16)) ((w :: ws).drop 16)

/-- SHA-256 of a byte sequence. -/
def sha256 (msg : List Nat) : Sha256State :=
  let ws := bytesToWords (sha256Pad msg)
  sha256ProcessWords ws.length sha256InitState ws

/-- Big-endian bytes of one 32-bit word. -/
def wordBytes (w : Nat) : List Nat :=
  [w / 2 ^ 24 % 256, w / 2 ^ 16 % 256, w / 2 ^ 8 % 256, w % 256]

/-- The 32-byte SHA-256 digest. -/
def sha256Digest (s : Sha256State) : List Nat :=
  wordBytes s.a ++ wordBytes s.b ++ wordBytes s.c ++ wordBytes s.d ++
  wordBytes s.e ++ wordBytes s.f ++ wordBytes s.g ++ wordBytes s.h

/-- Lowercase hex digit (0-9 then a-f), as produced by JS Number.toString(16). -/
def hexDigit (n : Nat) : Char :=
  if n < 10 then Char.ofNat (48 + n) else Char.ofNat (87 + n)

/-- `b.toString(16).padStart(2, '0')` for a byte: two lowercase hex digits
(the `% 16` on the high nibble only totalises the function — digest bytes are
below 256, where `b / 16 % 16 = b / 16`). -/
def byteToHex (b : Nat) : List Char := [hexDigit (b / 16 % 16), hexDigit (b % 16)]

/-- TextEncoder().encode: the UTF-8 bytes of the password. -/
def utf8Bytes (s : String) : List Nat := (String.toUTF8 s).toList.map (fun b => b.toNat)

/-- useMemberDiscounts.ts lines 163-171 (hashPassword in useMemberAuth): the
SHA-256 digest of the UTF-8 password, as a lowercase hex string. -/
def hashPassword (password : String) : String :=
  ⟨(sha256Digest (sha256 (utf8Bytes password))).flatMap byteToHex⟩

/-- useMemberDiscounts.ts lines 173-176: hash the candidate and compare. -/
def verifyPassword (password hash : String) : Bool := hashPassword password == hash

/-- useMemberDiscounts.ts lines 292-326 (login): given the member row found by
email (none when the query errs), succeed only for an active member whose
stored hash verifies against the supplied password. -/
def loginCheck (member : Option Member) (password : String) : Bool :=
  match member with
  | none => false
  | some m => if m.status != "active" then false else verifyPassword password m.password_hash

/- ===================== C10: fetchTopMembers (useMembers) ===================== -/

/-- An entry of the admin top-members list. -/
structure TopMember where
  member : Member
  total_orders : Nat
  total_cost : ℚ
deriving DecidableEq, Repr

/-- One `memberTotals.set` step of fetchTopMembers: `existing = get(id) ||
{ total_cost: 0, order_count: 0 }`, then store `existing.total_cost + price`
and `existing.order_count + 1` (the accumulator entry is
`(member_id, total_cost, order_count)`, in Map insertion order). -/
def updateTotals (acc : List (String × ℚ × Nat)) (mid : String) (price : ℚ) :
    List (String × ℚ × Nat) :=
  if acc.any (fun e => e.1 == mid) then
    acc.map (fun e => if e.1 == mid then (e.1, jsAdd e.2.1 price, e.2.2 + 1) else e)
  else acc ++ [(mid, jsAdd 0 price, 1)]

/-- One forEach iteration of fetchTopMembers: `if (order.member_id)` skips
falsy ids (null or the empty string); `order.total_price || 0` reads a missing
price as 0. -/
def totalsStep (acc : List (String × ℚ × Nat)) (o : Order) : List (String × ℚ × Nat) :=
  match o.member_id with
  | some mid => if mid ≠ "" then updateTotals acc mid (o.total_price.getD 0) else acc
  | none => acc

/-- useMemberDiscounts.ts lines 393-402 (fetchTopMembers in useMembers): fold
the fetched orders into per-member totals. -/
def memberTotals (data : List Order) : List (String × ℚ × Nat) :=
  data.foldl totalsStep []

/-- useMemberDiscounts.ts lines 380-439 (fetchTopMembers): fetch the orders with
a non-null member_id, aggregate per member, sort the entries by total cost
descending, keep the first `limit` ids, fetch those member rows, and build the
list, dropping ids whose member row or totals entry is missing. -/
def fetchTopMembersModel (orders : List Order) (members : List Member) (limit : Nat) :
    List TopMember :=
  let data := orders.filter (fun o => o.member_id.isSome)
  let totals := memberTotals data
  let sortedEntries := totals.mergeSort (fun a b => decide (b.2.1 ≤ a.2.1))
  let memberIds := (sortedEntries.take limit).map (fun e => e.1)
  let membersData := members.filter (fun mm => memberIds.contains mm.id)
  memberIds.filterMap (fun mid =>
    match membersData.find? (fun mm => mm.id == mid), totals.find? (fun e => e.1 == mid) with
    | some mm, some t => some ⟨mm, t.2.2, t.2.1⟩
    | _, _ => none)

/-- Invariant of the fetchTopMembers aggregation fold: after processing the
orders `processed`, the accumulator holds pairwise-distinct non-empty member
ids, each entry's order_count and total_cost are the count and price sum of the
processed orders with that member_id, every entry counts at least one order,
and a member id absent from the accumulator has no processed order. -/
def TotalsInv (processed : List Order) (acc : List (String × ℚ × Nat)) : Prop :=
  (acc.map (fun e => e.1)).Nodup ∧
  (∀ e ∈ acc, e.1 ≠ "" ∧
    e.2.2 = (processed.filter (fun o => o.member_id == some e.1)).length ∧
    e.2.1 = ((processed.filter (fun o => o.member_id == some e.1)).map
      (fun o => o.total_price.getD 0)).sum ∧
    1 ≤ e.2.2) ∧
  (∀ mid, mid ≠ "" → acc.any (fun e => e.1 == mid) = false →
    processed.filter (fun o => o.member_id == some mid) = [])

/-- One member-linked order for the top-members scenario. -/
def c10Orders : List Order :=
  [{ id := "o1", member_id := some "m1", total_price := some 100 }]

/-- The member owning that order. -/
def c10Member : Member := { id := "m1" }

/-- The aggregated entry fetchTopMembers produces for that member. -/
def c10Top : TopMember := ⟨c10Member, 1, jsAdd 0 100⟩

/- ===================== theorems ===================== -/

lemma jsMul_eq (a b : ℚ) : jsMul a b = a * b := by
  rw [jsMul, Rat.mkRat_eq_div]
  push_cast
  conv_rhs => rw [← Rat.num_div_den a, ← Rat.num_div_den b]
  rw [div_mul_div_comm]

lemma jsAdd_eq (a b : ℚ) : jsAdd a b = a + b := by
  rw [jsAdd, Rat.mkRat_eq_div]
  have hda : ((a.den : ℚ)) ≠ 0 := Nat.cast_ne_zero.mpr a.den_nz
  have hdb : ((b.den : ℚ)) ≠ 0 := Nat.cast_ne_zero.mpr b.den_nz
  push_cast
  conv_rhs => rw [← Rat.num_div_den a, ← Rat.num_div_den b]
  rw [div_add_div _ _ hda hdb]
  ring_nf

lemma jsSub_eq (a b : ℚ) : jsSub a b = a - b := by
  rw [jsSub, Rat.mkRat_eq_div]
  have hda : ((a.den : ℚ)) ≠ 0 := Nat.cast_ne_zero.mpr a.den_nz
  have hdb : ((b.den : ℚ)) ≠ 0 := Nat.cast_ne_zero.mpr b.den_nz
  push_cast
  conv_rhs => rw [← Rat.num_div_den a, ← Rat.num_div_den b]
  rw [div_sub_div _ _ hda hdb]
  ring_nf


lemma keepFirstBy_map_key_nodup {α : Type} (key : α → String) (l : List α) :
    ((keepFirstBy key l).map key).Nodup := by
  unfold keepFirstBy
  rw [List.map_map]
  have h0 : List.Pairwise (fun a b : Nat × α => a.1 ≠ b.1) l.enum := by
    have := List.nodup_enum_map_fst l
    rwa [List.Nodup, List.pairwise_map] at this
  have h1 := h0.filter (fun p => l.findIdx (fun x => key x == key p.2) == p.1)
  have h2 : List.Pairwise (fun a b : Nat × α => key a.2 ≠ key b.2)
      (l.enum.filter (fun p => l.findIdx (fun x => key x == key p.2) == p.1)) := by
    refine h1.imp_of_mem ?_
    intro a b ha hb hne hkey
    have pa := (List.mem_filter.mp ha).2
    have pb := (List.mem_filter.mp hb).2
    have hfun : (fun x => key x == key a.2) = (fun x => key x == key b.2) := by
      funext x; rw [hkey]
    apply hne
    have ea : List.findIdx (fun x => key x == key a.2) l = a.1 := eq_of_beq pa
    have eb : List.findIdx (fun x => key x == key b.2) l = b.1 := eq_of_beq pb
    rw [← ea, ← eb, hfun]
  rw [List.Nodup, List.pairwise_map]
  exact h2

lemma mergeFetchedOrders_ids_nodup (data prev : List Order) (limit : Nat) :
    ((mergeFetchedOrders data prev limit).map Order.id).Nodup := by
  unfold mergeFetchedOrders
  exact ((List.take_sublist _ _).map Order.id).nodup
    (keepFirstBy_map_key_nodup Order.id (data ++ prev))

lemma mergeRealtimeInsert_preserves_nodup (newOrder : Order) (prev : List Order)
    (h : (prev.map Order.id).Nodup) :
    ((mergeRealtimeInsert newOrder prev).map Order.id).Nodup := by
  unfold mergeRealtimeInsert
  by_cases hc : prev.any (fun o => o.id == newOrder.id) = true
  · simpa [hc] using h
  · rw [if_neg (by simpa using hc)]
    refine ((List.take_sublist _ _).map Order.id).nodup ?_
    rw [List.map_cons, List.nodup_cons]
    refine ⟨?_, h⟩
    intro hmem
    rcases List.mem_map.mp hmem with ⟨o, ho, hid⟩
    have : prev.any (fun o => o.id == newOrder.id) = true :=
      List.any_eq_true.mpr ⟨o, ho, by simp [hid]⟩
    exact hc this

/-- C1 (amended): the realtime INSERT merge returns the list unchanged when the
payload's id is already present, and otherwise prepends the new order keeping
only the first 100 entries; the incremental-fetch merge always yields pairwise
distinct ids; and the INSERT merge preserves distinctness of ids. -/
theorem c1_merge_dedup_amended (newOrder : Order) (prev data : List Order) (limit : Nat) :
    (prev.any (fun o => o.id == newOrder.id) = true → mergeRealtimeInsert newOrder prev = prev)
  ∧ (prev.any (fun o => o.id == newOrder.id) = false →
      mergeRealtimeInsert newOrder prev = (newOrder :: prev).take 100)
  ∧ ((mergeFetchedOrders data prev limit).map Order.id).Nodup
  ∧ ((prev.map Order.id).Nodup → ((mergeRealtimeInsert newOrder prev).map Order.id).Nodup) := by
  refine ⟨?_, ?_, mergeFetchedOrders_ids_nodup data prev limit,
    mergeRealtimeInsert_preserves_nodup newOrder prev⟩
  · intro h; simp [mergeRealtimeInsert, h]
  · intro h; simp [mergeRealtimeInsert, h]

/-- Witness for C1 at concrete inputs. -/
theorem c1_merge_dedup_amended_witness :
    mergeRealtimeInsert { id := "b" } [{ id := "a" }] =
      (({ id := "b" } : Order) :: [{ id := "a" }]).take 100
  ∧ ((mergeFetchedOrders [{ id := "a" }] [{ id := "a" }, { id := "b" }] 100).map Order.id).Nodup := by
  have h := c1_merge_dedup_amended { id := "b" } [{ id := "a" }] [{ id := "a" }] 100
  have h2 := c1_merge_dedup_amended { id := "b" } [{ id := "a" }, { id := "b" }]
    [{ id := "a" }] 100
  exact ⟨h.2.1 (by decide), h2.2.2.1⟩

lemma mergeRealtimeInsert_cap (newOrder : Order) (prev : List Order)
    (h : prev.any (fun o => o.id == newOrder.id) = false) (hlen : prev.length = 100) :
    mergeRealtimeInsert newOrder prev ≠ newOrder :: prev := by
  intro hEq
  have hlen2 := congrArg List.length hEq
  rw [mergeRealtimeInsert, if_neg (by simp [h])] at hlen2
  simp [hlen] at hlen2

/-- C1 counterexample: with 100 orders already in the list and a fresh INSERT
payload, the callback does not merely prepend the new order — it also drops the
oldest entry (the `.slice(0, 100)` cap). -/
theorem c1_counterexample : mergeRealtimeInsert cexNew cexPrev ≠ cexNew :: cexPrev :=
  mergeRealtimeInsert_cap cexNew cexPrev (by decide) (by decide)

lemma mem_fetchPaymentMethodsModel (groups : List AdminPaymentGroup)
    (methods : List PaymentMethod) (m : PaymentMethod) :
    m ∈ fetchPaymentMethodsModel groups methods ↔
      (m ∈ methods ∧ m.active = true ∧
        ∃ g ∈ groups, g.is_active = true ∧ m.admin_name = some g.admin_name) := by
  unfold fetchPaymentMethodsModel
  by_cases hempty : (groups.filter (·.is_active)).isEmpty
  · simp only [hempty, if_pos]
    have hnil : groups.filter (·.is_active) = [] := List.isEmpty_iff.mp hempty
    have hall : ∀ g ∈ groups, g.is_active = false := by
      intro g hg
      by_contra hga
      have : g ∈ groups.filter (·.is_active) :=
        List.mem_filter.mpr ⟨hg, by simpa using hga⟩
      simp [hnil] at this
    simp only [List.not_mem_nil, false_iff]
    rintro ⟨-, -, g, hg, hga, -⟩
    exact absurd hga (by simp [hall g hg])
  · rw [if_neg hempty, List.mem_mergeSort, List.mem_filter]
    constructor
    · rintro ⟨hm, hp⟩
      cases hadm : m.admin_name with
      | none => rw [hadm] at hp; simp at hp
      | some n =>
        rw [hadm] at hp
        simp only [Bool.and_eq_true] at hp
        obtain ⟨hact, hmem⟩ := hp
        have : n ∈ (groups.filter (·.is_active)).map (·.admin_name) :=
          List.elem_iff.mp hmem
        rcases List.mem_map.mp this with ⟨g, hgf, hgn⟩
        rcases List.mem_filter.mp hgf with ⟨hg, hga⟩
        refine ⟨hm, hact, g, hg, by simpa using hga, ?_⟩
        rw [hgn]
    · rintro ⟨hm, hact, g, hg, hga, hname⟩
      refine ⟨hm, ?_⟩
      rw [hname, hact]
      simp only [Bool.true_and]
      exact List.elem_iff.mpr
        (List.mem_map.mpr ⟨g, List.mem_filter.mpr ⟨hg, by simpa using hga⟩, rfl⟩)

lemma fetchPaymentMethodsModel_sorted (groups : List AdminPaymentGroup)
    (methods : List PaymentMethod) :
    List.Pairwise (fun a b : PaymentMethod => a.sort_order ≤ b.sort_order)
      (fetchPaymentMethodsModel groups methods) := by
  unfold fetchPaymentMethodsModel
  by_cases hempty : (groups.filter (·.is_active)).isEmpty
  · simp [hempty]
  · rw [if_neg hempty]
    have hs := @List.sorted_mergeSort PaymentMethod
      (fun a b : PaymentMethod => decide (a.sort_order ≤ b.sort_order))
      (fun a b c hab hbc =>
        decide_eq_true (le_trans (of_decide_eq_true hab) (of_decide_eq_true hbc)))
      (fun a b => by
        rcases le_total a.sort_order b.sort_order with h | h <;> simp [h])
      (methods.filter (fun m => m.active &&
        match m.admin_name with
        | some n => ((groups.filter (·.is_active)).map (·.admin_name)).contains n
        | none => false))
    exact hs.imp (fun h => of_decide_eq_true h)

/-- C4: fetchPaymentMethods shows exactly the active methods of active admin
groups, sorted by sort_order ascending; with no active group the customer list
is empty, and after deactivating a group none of its methods remain visible. -/
theorem c4_payment_group_gating (groups : List AdminPaymentGroup)
    (methods : List PaymentMethod) :
    (∀ m, m ∈ fetchPaymentMethodsModel groups methods ↔
      (m ∈ methods ∧ m.active = true ∧
        ∃ g ∈ groups, g.is_active = true ∧ m.admin_name = some g.admin_name))
  ∧ List.Pairwise (fun a b : PaymentMethod => a.sort_order ≤ b.sort_order)
      (fetchPaymentMethodsModel groups methods)
  ∧ ((∀ g ∈ groups, g.is_active = false) → fetchPaymentMethodsModel groups methods = [])
  ∧ (∀ name m, m ∈ fetchPaymentMethodsModel (updateAdminGroupModel groups name false) methods →
      m.admin_name ≠ some name) := by
  refine ⟨mem_fetchPaymentMethodsModel groups methods,
    fetchPaymentMethodsModel_sorted groups methods, ?_, ?_⟩
  · intro hall
    unfold fetchPaymentMethodsModel
    have : groups.filter (·.is_active) = [] := by
      rw [List.filter_eq_nil_iff]
      intro g hg
      simp [hall g hg]
    simp [this]
  · intro name m hm heq
    rcases (mem_fetchPaymentMethodsModel _ methods m).mp hm with ⟨-, -, g, hg, hga, hname⟩
    rcases List.mem_map.mp hg with ⟨g₀, hg₀, hgdef⟩
    by_cases hcase : g₀.admin_name == name
    · rw [if_pos hcase] at hgdef
      rw [← hgdef] at hga
      simp at hga
    · rw [if_neg hcase] at hgdef
      rw [← hgdef] at hname
      rw [heq] at hname
      have h' : g₀.admin_name = name := (Option.some.inj hname).symm
      simp [h'] at hcase

/-- Witness for C4 at a concrete group/method table. -/
theorem c4_payment_group_gating_witness :
    ({ id := "pm1", name := "GCash", active := true, sort_order := 1,
       admin_name := some "A" } : PaymentMethod) ∈
      fetchPaymentMethodsModel
        [{ admin_name := "A", is_active := true }, { admin_name := "B", is_active := false }]
        [{ id := "pm1", name := "GCash", active := true, sort_order := 1, admin_name := some "A" },
         { id := "pm2", name := "Maya", active := true, sort_order := 2, admin_name := some "B" }]
  ∧ fetchPaymentMethodsModel
      [{ admin_name := "A", is_active := false }]
      [{ id := "pm1", name := "GCash", active := true, sort_order := 1,
         admin_name := some "A" }] = [] := by
  have h := c4_payment_group_gating
    [{ admin_name := "A", is_active := true }, { admin_name := "B", is_active := false }]
    [{ id := "pm1", name := "GCash", active := true, sort_order := 1, admin_name := some "A" },
     { id := "pm2", name := "Maya", active := true, sort_order := 2, admin_name := some "B" }]
  have h2 := c4_payment_group_gating
    [{ admin_name := "A", is_active := false }]
    [{ id := "pm1", name := "GCash", active := true, sort_order := 1, admin_name := some "A" }]
  refine ⟨(h.1 _).mpr ⟨by decide, rfl, ⟨{ admin_name := "A", is_active := true }, by decide, rfl, rfl⟩⟩,
    h2.2.2.1 (by decide)⟩

/-- C5: createOrder inserts with status 'pending'; this status passes the orders
table check constraint, every row the table accepts has a status in the enum,
and createOrder returns the created order on success and null on a backend
error. -/
theorem c5_create_order_pending (d : CreateOrderData)
    (backend : OrderInsert → Except String Order) :
    (createOrderPayload d).status = "pending"
  ∧ orderStatusAllowed (createOrderPayload d).status = true
  ∧ (∀ p newId row, dbInsertOrder p newId = some row →
      (row.status = "pending" ∨ row.status = "processing" ∨
       row.status = "approved" ∨ row.status = "rejected"))
  ∧ (∀ o, backend (createOrderPayload d) = .ok o → createOrderModel d backend = some o)
  ∧ (∀ e, backend (createOrderPayload d) = .error e → createOrderModel d backend = none) := by
  refine ⟨rfl, rfl, ?_, ?_, ?_⟩
  · intro p newId row hrow
    unfold dbInsertOrder at hrow
    by_cases hok : orderStatusAllowed p.status
    · rw [if_pos hok] at hrow
      have hst : row.status = p.status := by
        cases hrow.symm
        rfl
      rw [hst]
      simp only [orderStatusAllowed, Bool.or_eq_true, beq_iff_eq] at hok
      tauto
    · simp [hok] at hrow
  · intro o h
    unfold createOrderModel
    rw [h]
  · intro e h
    unfold createOrderModel
    rw [h]

/-- Witness for C5 at a concrete order and backend. -/
theorem c5_create_order_pending_witness :
    createOrderModel { payment_method_id := "pm1", total_price := 100 }
      (fun p => .ok { id := "ord1", status := p.status }) =
      some { id := "ord1", status := "pending" }
  ∧ ((dbInsertOrder (createOrderPayload { payment_method_id := "pm1", total_price := 100 })
        "ord1").map Order.status).getD "" = "pending" := by
  have h := c5_create_order_pending { payment_method_id := "pm1", total_price := 100 }
    (fun p => .ok { id := "ord1", status := p.status })
  refine ⟨?_, by decide⟩
  have := h.2.2.2.1 { id := "ord1", status := "pending" } rfl
  exact this

/-- C6: updateOrderStatus changes only the entry whose id matches: on success it
returns true, keeps the length, sets that entry's status to the given status and
its rejection_message to the trimmed message exactly when the status is
'rejected' and the message is a non-blank string (null otherwise), leaving every
other entry unchanged; on backend failure it returns false and the list is not
modified. -/
theorem c6_update_order_status_frame (orders : List Order) (orderId status : String)
    (rm : Option (Option String)) (ok : Bool) :
    (ok = false → updateOrderStatusModel orders orderId status rm ok = (false, orders))
  ∧ (ok = true → (updateOrderStatusModel orders orderId status rm ok).1 = true)
  ∧ (ok = true → (updateOrderStatusModel orders orderId status rm ok).2.length = orders.length)
  ∧ (ok = true → ∀ (i : Nat) (o : Order), orders[i]? = some o → o.id ≠ orderId →
      (updateOrderStatusModel orders orderId status rm ok).2[i]? = some o)
  ∧ (ok = true → ∀ (i : Nat) (o : Order), orders[i]? = some o → o.id = orderId →
      (updateOrderStatusModel orders orderId status rm ok).2[i]? =
        some { o with
                status := status,
                rejection_message :=
                  (if status = "rejected" then
                    (match rm with
                     | some (some s) => if jsTrim s ≠ "" then some (jsTrim s) else none
                     | _ => none)
                   else none) }) := by
  refine ⟨?_, ?_, ?_, ?_, ?_⟩
  · intro h; simp [updateOrderStatusModel, h]
  · intro h; simp [updateOrderStatusModel, h]
  · intro h; simp [updateOrderStatusModel, h, applyOrderStatusUpdate]
  · intro h i o ho hne
    simp only [updateOrderStatusModel, h, if_pos, applyOrderStatusUpdate]
    rw [List.getElem?_map, ho]
    simp only [Option.map_some']
    rw [if_neg (by simpa using hne)]
  · intro h i o ho hid
    simp only [updateOrderStatusModel, h, if_pos, applyOrderStatusUpdate]
    rw [List.getElem?_map, ho]
    simp only [Option.map_some']
    rw [if_pos (by simpa using hid)]
    congr 1
    congr 1
    by_cases hs : status = "rejected"
    · simp only [hs, if_pos, rejectionPayload, beq_self_eq_true, if_true]
      cases rm with
      | none => rfl
      | some m =>
        cases m with
        | none => rfl
        | some s => rfl
    · simp [rejectionPayload, hs]

/-- Witness for C6 at a concrete list and update. -/
theorem c6_update_order_status_frame_witness :
    (updateOrderStatusModel [{ id := "a" }, { id := "b" }] "b" "rejected"
        (some (some "  bad receipt ")) true).2[1]? =
      some { id := "b", status := "rejected", rejection_message := some "bad receipt" }
  ∧ (updateOrderStatusModel [{ id := "a" }, { id := "b" }] "b" "rejected"
        (some (some "  bad receipt ")) true).2[0]? = some { id := "a" }
  ∧ updateOrderStatusModel [{ id := "a" }] "a" "approved" none false = (false, [{ id := "a" }]) := by
  have h := c6_update_order_status_frame [{ id := "a" }, { id := "b" }] "b" "rejected"
    (some (some "  bad receipt ")) true
  have h2 := c6_update_order_status_frame [{ id := "a" }] "a" "approved" none false
  refine ⟨?_, ?_, h2.1 rfl⟩
  · have := h.2.2.2.2 rfl 1 { id := "b" } rfl rfl
    rw [this]
    decide
  · exact h.2.2.2.1 rfl 0 { id := "a" } rfl (by decide)

/-- C8: the realtime orders channel is opened exactly when the order_option
setting is 'place_order'; a missing setting defaults to 'order_via_messenger';
and when the channel is not opened no realtime payload changes the orders
list. -/
theorem c8_subscription_gating (s : Option SiteSettings) (e : RealtimeEvent)
    (prev : List Order) :
    (subscriptionActive s = true ↔ ∃ st, s = some st ∧ st.order_option = some "place_order")
  ∧ ((s = none ∨ s = some { order_option := none }) →
      orderOptionOf s = "order_via_messenger")
  ∧ (subscriptionActive s = false → processRealtime s e prev = prev) := by
  refine ⟨⟨?_, ?_⟩, ?_, ?_⟩
  · intro h
    cases s with
    | none => simp [subscriptionActive, orderOptionOf] at h
    | some st =>
      cases hoo : st.order_option with
      | none => simp [subscriptionActive, orderOptionOf, hoo] at h
      | some v =>
        by_cases hv : v = ""
        · simp [subscriptionActive, orderOptionOf, hoo, hv] at h
        · have hv' : v = "place_order" := by
            simpa [subscriptionActive, orderOptionOf, hoo, hv] using h
          exact ⟨st, rfl, by rw [hoo, hv']⟩
  · rintro ⟨st, rfl, hoo⟩
    simp [subscriptionActive, orderOptionOf, hoo]
  · rintro (rfl | rfl) <;> rfl
  · intro h
    simp [processRealtime, h]

/-- Witness for C8 at concrete settings. -/
theorem c8_subscription_gating_witness :
    subscriptionActive (some { order_option := some "place_order" }) = true
  ∧ processRealtime (some { order_option := some "order_via_messenger" })
      (.insertEvent { id := "x" }) [{ id := "a" }] = [{ id := "a" }] := by
  have h1 := c8_subscription_gating (some { order_option := some "place_order" })
    (.insertEvent { id := "x" }) []
  have h2 := c8_subscription_gating (some { order_option := some "order_via_messenger" })
    (.insertEvent { id := "x" }) [{ id := "a" }]
  exact ⟨h1.1.mpr ⟨_, rfl, rfl⟩, h2.2.2 (by decide)⟩


/-- C2 (code evidence): after the customer enters "12345" through the
details-form input (stored under the indexed key "g1_0_uid"), the generated
order message does not contain "User ID: 12345" — generateOrderMessage looks
the value up under the unindexed key "g1_uid" — although the same state makes
handlePlaceOrderDirect put ("User ID", "12345") into customer_info, and a value
stored under the legacy unindexed key would appear in the message. -/
theorem c2_message_drops_entered_fields :
    strContains
      (generateOrderMessage [c2Item] c2Values 100 (some c2Gcash) (some "http://r"))
      "User ID: 12345" = false
  ∧ recordGet (buildCustomerInfo [c2Item] c2Values "GCash") "User ID" = some "12345"
  ∧ strContains
      (generateOrderMessage [c2Item] [("g1_uid", "12345")] 100 (some c2Gcash)
        (some "http://r")) "User ID: 12345" = true := by
  refine ⟨by decide, by decide, by decide⟩

/-- C7: handlePlaceOrderDirect and handlePlaceOrder create an order (or open the
messenger link) only when a payment method is selected and a receipt URL is
present; a missing payment method yields the error 'Please select a payment
method' and a missing receipt yields 'Please upload your payment receipt before
placing the order', without calling createOrder or opening the link. -/
theorem c7_checkout_validation (pms : List PaymentMethod) (pm url : Option String)
    (cart : List CartItem) (cfv : List (String × String)) (total : ℚ) :
    (∀ items info pid rurl tp,
        handlePlaceOrderDirect pms pm url cart cfv total =
          .placed items info pid rurl tp →
        optStrTruthy pm = true ∧ optStrTruthy url = true)
  ∧ (optStrTruthy pm = false →
      handlePlaceOrderDirect pms pm url cart cfv total =
        .validationError "Please select a payment method")
  ∧ (optStrTruthy pm = true → optStrTruthy url = false →
      handlePlaceOrderDirect pms pm url cart cfv total =
        .validationError "Please upload your payment receipt before placing the order")
  ∧ (∀ msg, handlePlaceOrder pms pm url cart cfv total = .openMessenger msg →
        optStrTruthy pm = true ∧ optStrTruthy url = true)
  ∧ (optStrTruthy pm = false →
      handlePlaceOrder pms pm url cart cfv total =
        .validationError "Please select a payment method")
  ∧ (optStrTruthy pm = true → optStrTruthy url = false →
      handlePlaceOrder pms pm url cart cfv total =
        .validationError "Please upload your payment receipt before placing the order") := by
  refine ⟨?_, ?_, ?_, ?_, ?_, ?_⟩
  · intro items info pid rurl tp h
    by_cases hpm : optStrTruthy pm
    · by_cases hurl : optStrTruthy url
      · exact ⟨hpm, hurl⟩
      · rw [handlePlaceOrderDirect, if_neg (by simp [hpm]),
          if_pos (by simp [Bool.eq_false_iff.mpr hurl])] at h
        cases h
    · rw [handlePlaceOrderDirect, if_pos (by simp [Bool.eq_false_iff.mpr hpm])] at h
      cases h
  · intro h
    rw [handlePlaceOrderDirect, if_pos (by simp [h])]
  · intro h1 h2
    rw [handlePlaceOrderDirect, if_neg (by simp [h1]), if_pos (by simp [h2])]
  · intro msg h
    by_cases hpm : optStrTruthy pm
    · by_cases hurl : optStrTruthy url
      · exact ⟨hpm, hurl⟩
      · rw [handlePlaceOrder, if_neg (by simp [hpm]),
          if_pos (by simp [Bool.eq_false_iff.mpr hurl])] at h
        cases h
    · rw [handlePlaceOrder, if_pos (by simp [Bool.eq_false_iff.mpr hpm])] at h
      cases h
  · intro h
    rw [handlePlaceOrder, if_pos (by simp [h])]
  · intro h1 h2
    rw [handlePlaceOrder, if_neg (by simp [h1]), if_pos (by simp [h2])]

/-- Witness for C7 at concrete checkout states. -/
theorem c7_checkout_validation_witness :
    (optStrTruthy (some "gcash") = true ∧ optStrTruthy (some "http://r") = true)
  ∧ handlePlaceOrderDirect [c2Gcash] none none [] [] 0 =
      .validationError "Please select a payment method"
  ∧ handlePlaceOrder [c2Gcash] (some "gcash") none [] [] 0 =
      .validationError "Please upload your payment receipt before placing the order" := by
  have h := c7_checkout_validation [c2Gcash] (some "gcash") (some "http://r") [] [] 0
  have h2 := c7_checkout_validation [c2Gcash] none none [] [] 0
  have h3 := c7_checkout_validation [c2Gcash] (some "gcash") none [] [] 0
  exact ⟨h.1 [] [("Payment Method", "GCash")] "gcash" "http://r" 0 (by decide),
    h2.2.1 rfl, h3.2.2.2.2.2 (by decide) rfl⟩

/-- C3 (amended): getDiscountedPriceSync returns the variation's reseller_price
for a reseller when it is set; an end-user member with a member_price set
receives that price; otherwise a reseller with a per-member discount entry
whose selling_price is nonzero receives that selling_price; and only when none
of these overrides applies does it fall back to the item-level percentage
discount (base price minus base price times discountPercentage) or the
unchanged base price. -/
theorem c3_discount_priority (m : Option Member) (md : List (String × ℚ))
    (item : MenuItem) (basePrice : ℚ) (vid : Option String) :
    (∀ rp, isResellerM m = true →
      (getVariationById item vid).bind Variation.reseller_price = some rp →
      getDiscountedPriceSync m md item basePrice vid = rp)
  ∧ (∀ mem mp, m = some mem → mem.user_type = "end_user" →
      (getVariationById item vid).bind Variation.member_price = some mp →
      getDiscountedPriceSync m md item basePrice vid = mp)
  ∧ (∀ v sp, isResellerM m = true → vid = some v → v ≠ "" →
      (getVariationById item vid).bind Variation.reseller_price = none →
      discountLookup md v = some sp → sp ≠ 0 →
      getDiscountedPriceSync m md item basePrice vid = sp)
  ∧ (¬(isResellerM m = true ∧
        ((getVariationById item vid).bind Variation.reseller_price).isSome = true) →
     ¬((∃ mem, m = some mem ∧ mem.user_type = "end_user") ∧
        ((getVariationById item vid).bind Variation.member_price).isSome = true) →
     ¬(isResellerM m = true ∧ ∃ v, vid = some v ∧ v ≠ "" ∧
        (discountLookup md v).getD 0 ≠ 0) →
      ((∀ pct, item.isOnDiscount = true → item.discountPercentage = some pct →
          getDiscountedPriceSync m md item basePrice vid = basePrice - basePrice * pct)
       ∧ ((item.isOnDiscount = false ∨ item.discountPercentage = none) →
          getDiscountedPriceSync m md item basePrice vid = basePrice))) := by
  refine ⟨?_, ?_, ?_, ?_⟩
  · intro rp hr hrp
    have hsome : m.isSome = true := by
      cases m with
      | none => simp [isResellerM] at hr
      | some mem => rfl
    unfold getDiscountedPriceSync
    rw [if_pos (by simp [hr, hsome, hrp]), hrp]
    rfl
  · intro mem mp hm huser hmp
    subst hm
    have hr : isResellerM (some mem) = false := by
      simp [isResellerM, huser]
    unfold getDiscountedPriceSync
    rw [if_neg (by simp [hr]), if_pos (by simp [hr, huser, hmp]), hmp]
    rfl
  · intro v sp hr hv hvne hrp hsp hspne
    have hsome : m.isSome = true := by
      cases m with
      | none => simp [isResellerM] at hr
      | some mem => rfl
    unfold getDiscountedPriceSync
    rw [if_neg (by simp [hrp]), if_neg (by simp [hr]),
      if_pos (by simp [hr, hsome, hv, optStrTruthy, hvne, hsp, hspne]), hv]
    simp [hsp]
  · intro h1 h2 h3
    have hc1 : ¬(isResellerM m && m.isSome &&
        ((getVariationById item vid).bind Variation.reseller_price).isSome) = true := by
      intro hc
      simp only [Bool.and_eq_true] at hc
      exact h1 ⟨hc.1.1, hc.2⟩
    have hc2 : ¬(m.isSome && !isResellerM m &&
        (m.map (fun mm => mm.user_type == "end_user")).getD false &&
        ((getVariationById item vid).bind Variation.member_price).isSome) = true := by
      intro hc
      simp only [Bool.and_eq_true] at hc
      cases m with
      | none => simp at hc
      | some mem =>
        refine h2 ⟨⟨mem, rfl, ?_⟩, hc.2⟩
        have := hc.1.2
        simpa using this
    have hc3 : ¬(isResellerM m && m.isSome && optStrTruthy vid &&
        (match vid with
         | some v => decide (((discountLookup md v).getD 0) ≠ 0)
         | none => false)) = true := by
      intro hc
      simp only [Bool.and_eq_true] at hc
      cases vid with
      | none => simp [optStrTruthy] at hc
      | some v =>
        refine h3 ⟨hc.1.1.1, v, rfl, ?_, ?_⟩
        · have := hc.1.2
          simpa [optStrTruthy] using this
        · have := hc.2
          simpa using this
    constructor
    · intro pct hd hpct
      unfold getDiscountedPriceSync
      rw [if_neg hc1, if_neg hc2, if_neg hc3, if_pos (by simp [hd, hpct]), hpct]
      simp [jsSub_eq, jsMul_eq]
    · intro hnone
      unfold getDiscountedPriceSync
      rw [if_neg hc1, if_neg hc2, if_neg hc3, if_neg (by
        rcases hnone with h | h <;> simp [h])]

/-- Witness for C3 at concrete members, discounts and variations. -/
theorem c3_discount_priority_witness :
    getDiscountedPriceSync (some c3Reseller) []
      { id := "g", variations := some [{ id := "v1", reseller_price := some 55, price := 100 }] }
      100 (some "v1") = 55
  ∧ getDiscountedPriceSync (some { id := "m2" }) []
      { id := "g", variations := some [{ id := "v1", member_price := some 60, price := 100 }] }
      100 (some "v1") = 60
  ∧ getDiscountedPriceSync (some c3Reseller) [("v1", 70)] c3Item 100 (some "v1") = 70
  ∧ getDiscountedPriceSync none [] { id := "g" } 100 none = 100 := by
  have h1 := c3_discount_priority (some c3Reseller) []
    { id := "g", variations := some [{ id := "v1", reseller_price := some 55, price := 100 }] }
    100 (some "v1")
  have h2 := c3_discount_priority (some { id := "m2" }) []
    { id := "g", variations := some [{ id := "v1", member_price := some 60, price := 100 }] }
    100 (some "v1")
  have h3 := c3_discount_priority (some c3Reseller) [("v1", 70)] c3Item 100 (some "v1")
  have h4 := c3_discount_priority none [] { id := "g" } 100 none
  refine ⟨h1.1 55 (by decide) (by decide),
    h2.2.1 { id := "m2" } 60 rfl rfl (by decide),
    h3.2.2.1 "v1" 70 (by decide) rfl (by decide) (by decide) (by decide) (by decide),
    (h4.2.2.2 (by decide) (by decide) (by decide)).2 (Or.inl rfl)⟩

/-- C3 counterexample: a reseller holding a per-member discount entry for the
variation with selling_price 0 does not receive that selling_price — JS
truthiness treats the 0 as absent and the code falls through to the item-level
10% discount, returning 90 instead of 0. -/
theorem c3_counterexample :
    discountLookup [("v1", 0)] "v1" = some 0
  ∧ getDiscountedPriceSync (some c3Reseller) [("v1", 0)] c3Item 100 (some "v1") = 90
  ∧ (90 : ℚ) ≠ 0 := by
  refine ⟨by decide, by decide, by decide⟩

lemma length_flatMap_byteToHex (l : List Nat) : (l.flatMap byteToHex).length = 2 * l.length := by
  induction l with
  | nil => rfl
  | cons b bs ih =>
    simp only [List.flatMap_cons, List.length_append, ih, byteToHex]
    simp
    omega

lemma sha256Digest_length (s : Sha256State) : (sha256Digest s).length = 32 := by
  simp [sha256Digest, wordBytes]

lemma hexDigit_mem (n : Nat) (h : n < 16) : hexDigit n ∈ "0123456789abcdef".data := by
  interval_cases n <;> decide

/-- C9: hashPassword is a function producing a 64-character lowercase-hex
SHA-256 digest; verifyPassword(p, hashPassword p) holds, verifyPassword(q,
hashPassword p) holds exactly when the two hashes are equal, and login succeeds
only for an active member whose stored hash is the hash of the supplied
password. -/
theorem c9_password_hash_roundtrip (p q : String) (m : Option Member) :
    (hashPassword p).length = 64
  ∧ (∀ c ∈ (hashPassword p).data, c ∈ "0123456789abcdef".data)
  ∧ verifyPassword p (hashPassword p) = true
  ∧ (verifyPassword q (hashPassword p) = true ↔ hashPassword q = hashPassword p)
  ∧ (loginCheck m p = true →
      ∃ mem, m = some mem ∧ mem.status = "active" ∧ hashPassword p = mem.password_hash) := by
  refine ⟨?_, ?_, ?_, ?_, ?_⟩
  · show ((sha256Digest (sha256 (utf8Bytes p))).flatMap byteToHex).length = 64
    rw [length_flatMap_byteToHex, sha256Digest_length]
  · intro c hc
    have hc' : c ∈ (sha256Digest (sha256 (utf8Bytes p))).flatMap byteToHex := hc
    rcases List.mem_flatMap.mp hc' with ⟨b, -, hcb⟩
    rcases (by simpa [byteToHex] using hcb : c = hexDigit (b / 16 % 16) ∨ c = hexDigit (b % 16))
      with h | h
    · exact h ▸ hexDigit_mem _ (Nat.mod_lt _ (by norm_num))
    · exact h ▸ hexDigit_mem _ (Nat.mod_lt _ (by norm_num))
  · exact beq_self_eq_true (hashPassword p)
  · exact beq_iff_eq
  · intro hl
    cases m with
    | none => simp [loginCheck] at hl
    | some mem =>
      simp only [loginCheck] at hl
      by_cases hst : (mem.status != "active") = true
      · rw [if_pos hst] at hl
        cases hl
      · rw [if_neg hst] at hl
        have hst' : mem.status = "active" := by
          simpa using hst
        exact ⟨mem, rfl, hst', eq_of_beq hl⟩

/-- Witness for C9 at concrete passwords and a concrete member row. -/
theorem c9_password_hash_roundtrip_witness :
    (hashPassword "hunter2").length = 64
  ∧ (∃ c ∈ (hashPassword "hunter2").data, c ∈ "0123456789abcdef".data)
  ∧ verifyPassword "hunter2" (hashPassword "hunter2") = true
  ∧ (verifyPassword "password1" (hashPassword "hunter2") = true ↔
      hashPassword "password1" = hashPassword "hunter2")
  ∧ (∃ mem, (some { id := "m1", status := "active"
                    password_hash := hashPassword "hunter2" } : Option Member) = some mem ∧
      mem.status = "active" ∧ hashPassword "hunter2" = mem.password_hash) := by
  have h := c9_password_hash_roundtrip "hunter2" "password1"
    (some { id := "m1", status := "active", password_hash := hashPassword "hunter2" })
  obtain ⟨c, hc⟩ : ∃ c, c ∈ (hashPassword "hunter2").data := by
    have hlen : (hashPassword "hunter2").data.length = 64 := h.1
    cases hd : (hashPassword "hunter2").data with
    | nil => rw [hd] at hlen; cases hlen
    | cons c cs => exact ⟨c, List.mem_cons_self c cs⟩
  refine ⟨h.1, ⟨c, hc, h.2.1 c hc⟩, h.2.2.1, h.2.2.2.1, h.2.2.2.2 ?_⟩
  simp only [loginCheck]
  have : (({ id := "m1", status := "active"
             password_hash := hashPassword "hunter2" } : Member).status != "active") = false := by
    decide
  rw [this]
  simp only [Bool.false_eq_true, if_false]
  exact h.2.2.1

lemma find?_eq_of_keys_nodup {β : Type} {l : List (String × β)}
    (hn : (l.map (fun e => e.1)).Nodup) {e : String × β} (he : e ∈ l) :
    l.find? (fun x => x.1 == e.1) = some e := by
  induction l with
  | nil => cases he
  | cons hd tl ih =>
    rw [List.map_cons, List.nodup_cons] at hn
    rcases List.mem_cons.mp he with rfl | htl
    · exact List.find?_cons_of_pos tl (by simp)
    · have hne : ¬(hd.1 == e.1) = true := by
        intro hkey
        exact hn.1 ((eq_of_beq hkey) ▸ (List.mem_map.mpr ⟨e, htl, rfl⟩))
      rw [List.find?_cons_of_neg tl hne]
      exact ih hn.2 htl

lemma totalsStep_inv (processed : List Order) (acc : List (String × ℚ × Nat)) (o : Order)
    (h : TotalsInv processed acc) : TotalsInv (processed ++ [o]) (totalsStep acc o) := by
  obtain ⟨hkeys, hent, hmiss⟩ := h
  cases homid : o.member_id with
  | none =>
    have hkeep : ∀ k : String, (processed ++ [o]).filter (fun x => x.member_id == some k) =
        processed.filter (fun x => x.member_id == some k) := by
      intro k
      simp [List.filter_append, List.filter_cons, homid]
    refine ⟨by simpa [totalsStep, homid] using hkeys, ?_, ?_⟩
    · intro e he
      rw [totalsStep, homid] at he
      obtain ⟨h1, h2, h3, h4⟩ := hent e he
      exact ⟨h1, by rw [hkeep]; exact h2, by rw [hkeep]; exact h3, h4⟩
    · intro mid hmid hany
      rw [totalsStep, homid] at hany
      rw [hkeep]
      exact hmiss mid hmid hany
  | some mid =>
    by_cases hmid : mid ≠ ""
    · simp only [totalsStep, homid]
      rw [if_pos hmid]
      by_cases hin : acc.any (fun e => e.1 == mid) = true
      · -- existing entry: every entry with this key is bumped by the new order
        rw [updateTotals, if_pos hin]
        have hfst : ∀ e : String × ℚ × Nat,
            ((if e.1 == mid then (e.1, jsAdd e.2.1 (o.total_price.getD 0), e.2.2 + 1) else e)).1
              = e.1 := by
          intro e
          by_cases hk : (e.1 == mid) = true <;> simp [hk]
        have hkeys' : ((acc.map (fun e =>
            if e.1 == mid then (e.1, jsAdd e.2.1 (o.total_price.getD 0), e.2.2 + 1) else e)).map
              (fun e => e.1)).Nodup := by
          rw [List.map_map]
          have : ∀ e ∈ acc, ((fun e => e.1) ∘ (fun e =>
              if e.1 == mid then (e.1, jsAdd e.2.1 (o.total_price.getD 0), e.2.2 + 1) else e)) e
              = e.1 := fun e _ => hfst e
          rw [List.map_congr_left this]
          exact hkeys
        refine ⟨hkeys', ?_, ?_⟩
        · intro e' he'
          rcases List.mem_map.mp he' with ⟨e, he, hdef⟩
          obtain ⟨h1, h2, h3, h4⟩ := hent e he
          by_cases hk : (e.1 == mid) = true
          · have hkey : e.1 = mid := eq_of_beq hk
            have hmatch : (o.member_id == some e.1) = true := by
              rw [homid, hkey]
              simp
            have hsplit : (processed ++ [o]).filter (fun x => x.member_id == some e.1) =
                processed.filter (fun x => x.member_id == some e.1) ++ [o] := by
              simp [List.filter_append, List.filter_cons, hmatch]
            rw [← hdef]
            rw [if_pos hk]
            refine ⟨h1, ?_, ?_, by simp⟩
            · simp [hsplit, h2]
            · rw [hsplit, jsAdd_eq, List.map_append, List.sum_append, h3]
              simp
          · have hkey : e.1 ≠ mid := fun hh => hk (by simp [hh])
            have hmatch : (o.member_id == some e.1) = false := by
              rw [homid]
              simp [Ne.symm hkey]
            have hsplit : (processed ++ [o]).filter (fun x => x.member_id == some e.1) =
                processed.filter (fun x => x.member_id == some e.1) := by
              simp [List.filter_append, List.filter_cons, hmatch]
            rw [← hdef, if_neg hk]
            exact ⟨h1, by rw [hsplit]; exact h2, by rw [hsplit]; exact h3, h4⟩
        · intro mid' hmid' hany
          have hany0 : acc.any (fun e => e.1 == mid') = false := by
            rw [List.any_eq_false] at hany ⊢
            intro e he hpe
            exact hany _ (List.mem_map.mpr ⟨e, he, rfl⟩) (by rw [hfst e]; exact hpe)
          have hne : mid ≠ mid' := by
            intro hh
            rw [List.any_eq_false] at hany0
            rcases List.any_eq_true.mp hin with ⟨e, he, hpe⟩
            exact hany0 e he (by rw [← hh]; exact hpe)
          have hmatch : (o.member_id == some mid') = false := by
            rw [homid]
            simp [hne]
          rw [List.filter_append]
          rw [hmiss mid' hmid' hany0]
          simp [List.filter_cons, hmatch]
      · -- fresh entry appended with count 1 and cost 0 + price
        rw [updateTotals, if_neg hin]
        have hin' : acc.any (fun e => e.1 == mid) = false := Bool.eq_false_iff.mpr hin
        have hnotin : mid ∉ acc.map (fun e => e.1) := by
          intro hm
          rcases List.mem_map.mp hm with ⟨e, he, hkey⟩
          rw [List.any_eq_false] at hin'
          exact hin' e he (by simp [hkey])
        refine ⟨?_, ?_, ?_⟩
        · rw [List.map_append, List.nodup_append]
          refine ⟨hkeys, by simp, ?_⟩
          intro a ha hb
          have hamid : a = mid := by simpa using hb
          exact hnotin (hamid ▸ ha)
        · intro e' he'
          rcases List.mem_append.mp he' with he | hnew
          · obtain ⟨h1, h2, h3, h4⟩ := hent e' he
            have hkey : e'.1 ≠ mid := by
              intro hh
              exact hnotin (hh ▸ List.mem_map.mpr ⟨e', he, rfl⟩)
            have hmatch : (o.member_id == some e'.1) = false := by
              rw [homid]
              simp [Ne.symm hkey]
            have hsplit : (processed ++ [o]).filter (fun x => x.member_id == some e'.1) =
                processed.filter (fun x => x.member_id == some e'.1) := by
              simp [List.filter_append, List.filter_cons, hmatch]
            exact ⟨h1, by rw [hsplit]; exact h2, by rw [hsplit]; exact h3, h4⟩
          · have hnew' : e' = (mid, jsAdd 0 (o.total_price.getD 0), 1) := by simpa using hnew
            subst hnew'
            have hmatch : (o.member_id == some mid) = true := by
              rw [homid]
              simp
            have hempty : processed.filter (fun x => x.member_id == some mid) = [] :=
              hmiss mid hmid hin'
            have hsplit : (processed ++ [o]).filter (fun x => x.member_id == some mid) = [o] := by
              simp [List.filter_append, List.filter_cons, hmatch, hempty]
            refine ⟨hmid, by simp [hsplit], ?_, le_refl 1⟩
            rw [hsplit, jsAdd_eq]
            simp
        · intro mid' hmid' hany
          rw [List.any_append] at hany
          rw [Bool.or_eq_false_iff] at hany
          have hne : mid ≠ mid' := by
            intro hh
            have := hany.2
            simp [hh] at this
          have hmatch : (o.member_id == some mid') = false := by
            rw [homid]
            simp [hne]
          rw [List.filter_append, hmiss mid' hmid' hany.1]
          simp [List.filter_cons, hmatch]
    · -- member_id is the empty string: the order is skipped and matches no key
      simp only [totalsStep, homid]
      rw [if_neg hmid]
      have hmid' : mid = "" := by simpa using hmid
      subst hmid'
      refine ⟨hkeys, ?_, ?_⟩
      · intro e he
        obtain ⟨h1, h2, h3, h4⟩ := hent e he
        have hmatch : (o.member_id == some e.1) = false := by
          rw [homid]
          simp [Ne.symm h1]
        have hsplit : (processed ++ [o]).filter (fun x => x.member_id == some e.1) =
            processed.filter (fun x => x.member_id == some e.1) := by
          simp [List.filter_append, List.filter_cons, hmatch]
        exact ⟨h1, by rw [hsplit]; exact h2, by rw [hsplit]; exact h3, h4⟩
      · intro mid' hmid' hany
        have hmatch : (o.member_id == some mid') = false := by
          rw [homid]
          simp [Ne.symm hmid']
        rw [List.filter_append, hmiss mid' hmid' hany]
        simp [List.filter_cons, hmatch]

lemma foldl_totals_inv (l processed : List Order) (acc : List (String × ℚ × Nat))
    (h : TotalsInv processed acc) : TotalsInv (processed ++ l) (l.foldl totalsStep acc) := by
  induction l generalizing processed acc with
  | nil => simpa using h
  | cons o l' ih =>
    have h2 := ih (processed ++ [o]) (totalsStep acc o) (totalsStep_inv processed acc o h)
    simpa [List.append_assoc] using h2

lemma memberTotals_inv (data : List Order) : TotalsInv data (memberTotals data) := by
  have h0 : TotalsInv [] ([] : List (String × ℚ × Nat)) := ⟨by simp, by simp, by simp⟩
  simpa [memberTotals] using foldl_totals_inv data [] [] h0

/-- C10: fetchTopMembers(limit) yields at most limit entries, sorted by
total_cost non-increasing; each listed member's total_orders is the number of
fetched orders with that member_id and total_cost is the sum of their
total_price (missing prices read as 0); a member with no member-linked order is
never listed. -/
theorem c10_top_members (orders : List Order) (members : List Member) (limit : Nat) :
    (fetchTopMembersModel orders members limit).length ≤ limit
  ∧ List.Pairwise (fun a b : TopMember => b.total_cost ≤ a.total_cost)
      (fetchTopMembersModel orders members limit)
  ∧ (∀ tm ∈ fetchTopMembersModel orders members limit,
      tm.total_orders = (orders.filter (fun o => o.member_id == some tm.member.id)).length
      ∧ tm.total_cost = ((orders.filter (fun o => o.member_id == some tm.member.id)).map
          (fun o => o.total_price.getD 0)).sum
      ∧ orders.filter (fun o => o.member_id == some tm.member.id) ≠ []) := by
  set dataL := orders.filter (fun o => o.member_id.isSome) with hdata
  set totals := memberTotals dataL with htotals
  set sortedE := totals.mergeSort (fun a b => decide (b.2.1 ≤ a.2.1)) with hsortedE
  set mids := (sortedE.take limit).map (fun e => e.1) with hmids
  set membersData := members.filter (fun mm => mids.contains mm.id) with hmembersData
  set f := (fun mid =>
      match membersData.find? (fun mm => mm.id == mid), totals.find? (fun e => e.1 == mid) with
      | some mm, some t => some (⟨mm, t.2.2, t.2.1⟩ : TopMember)
      | _, _ => none) with hf
  have hres : fetchTopMembersModel orders members limit = mids.filterMap f := rfl
  obtain ⟨hkeys, hent, hmiss⟩ := memberTotals_inv dataL
  have hfilter : ∀ k : String,
      dataL.filter (fun o => o.member_id == some k) =
      orders.filter (fun o => o.member_id == some k) := by
    intro k
    rw [hdata, List.filter_filter]
    apply List.filter_congr
    intro a _
    cases a.member_id <;> simp
  have hmemtot : ∀ e ∈ sortedE.take limit, e ∈ totals := by
    intro e he
    exact List.mem_mergeSort.mp ((List.take_sublist limit sortedE).subset he)
  have hfspec : ∀ e ∈ totals, ∀ tm : TopMember, f e.1 = some tm →
      tm.total_orders = e.2.2 ∧ tm.total_cost = e.2.1 ∧ tm.member.id = e.1 := by
    intro e he tm htm
    rw [hf] at htm
    simp only at htm
    rw [find?_eq_of_keys_nodup hkeys he] at htm
    cases hmm : membersData.find? (fun mm => mm.id == e.1) with
    | none => rw [hmm] at htm; cases htm
    | some mm =>
      rw [hmm] at htm
      have hpmm : (mm.id == e.1) = true := by
        have := List.find?_some hmm
        simpa using this
      have hmmid : mm.id = e.1 := eq_of_beq hpmm
      cases htm
      exact ⟨rfl, rfl, hmmid⟩
  refine ⟨?_, ?_, ?_⟩
  · rw [hres]
    calc (mids.filterMap f).length ≤ mids.length := List.length_filterMap_le f mids
      _ = (sortedE.take limit).length := by rw [hmids, List.length_map]
      _ ≤ limit := List.length_take_le limit sortedE
  · rw [hres, hmids]
    rw [List.pairwise_filterMap, List.pairwise_map]
    have hsort : List.Pairwise (fun a b : String × ℚ × Nat => b.2.1 ≤ a.2.1) sortedE := by
      have hs := @List.sorted_mergeSort (String × ℚ × Nat)
        (fun a b : String × ℚ × Nat => decide (b.2.1 ≤ a.2.1))
        (fun a b c hab hbc =>
          decide_eq_true (le_trans (of_decide_eq_true hbc) (of_decide_eq_true hab)))
        (fun a b => by
          rcases le_total a.2.1 b.2.1 with h | h <;> simp [h])
        totals
      exact hs.imp (fun h => of_decide_eq_true h)
    have htake := List.Pairwise.sublist (List.take_sublist limit sortedE) hsort
    refine htake.imp_of_mem ?_
    intro e e' he he' hle tm htm tm' htm'
    obtain ⟨hto, htc, -⟩ := hfspec e (hmemtot e he) tm htm
    obtain ⟨hto', htc', -⟩ := hfspec e' (hmemtot e' he') tm' htm'
    rw [htc, htc']
    exact hle
  · intro tm htm
    rw [hres] at htm
    rcases List.mem_filterMap.mp htm with ⟨mid, hmid_mem, hfm⟩
    rw [hmids] at hmid_mem
    rcases List.mem_map.mp hmid_mem with ⟨e, hetake, hmid_eq⟩
    have he : e ∈ totals := hmemtot e hetake
    rw [← hmid_eq] at hfm
    obtain ⟨hto, htc, hid⟩ := hfspec e he tm hfm
    obtain ⟨h1, h2, h3, h4⟩ := hent e he
    rw [hid, ← hfilter e.1]
    refine ⟨by rw [hto, h2], by rw [htc, h3], ?_⟩
    intro hnil
    rw [hnil] at h2
    rw [h2] at h4
    cases h4

/-- Witness for C10 at a one-member order history. -/
theorem c10_top_members_witness :
    (fetchTopMembersModel c10Orders [c10Member] 10).length ≤ 10
  ∧ c10Top.total_orders =
      (c10Orders.filter (fun o => o.member_id == some c10Top.member.id)).length
  ∧ c10Top.total_cost = ((c10Orders.filter (fun o => o.member_id == some c10Top.member.id)).map
      (fun o => o.total_price.getD 0)).sum
  ∧ c10Orders.filter (fun o => o.member_id == some c10Top.member.id) ≠ [] := by
  have h := c10_top_members c10Orders [c10Member] 10
  have htot : memberTotals (c10Orders.filter (fun o => o.member_id.isSome)) =
      [("m1", jsAdd 0 ((100 : ℚ)), 1)] := by decide
  have hres : fetchTopMembersModel c10Orders [c10Member] 10 = [c10Top] := by
    simp only [fetchTopMembersModel, htot, List.mergeSort_singleton]
    decide
  have hmem : c10Top ∈ fetchTopMembersModel c10Orders [c10Member] 10 := by
    rw [hres]
    exact List.mem_cons_self c10Top []
  obtain ⟨ha, hb, hc⟩ := h.2.2 c10Top hmem
  exact ⟨h.1, ha, hb, hc⟩
